import Mathlib

/-!
Shallow embedding of the participant upload/search server (src/script.js,
Express backend part): upload-time validation and deduplication, the
paginated search endpoint, and the detail-lookup endpoint.

Spreadsheet cells are modelled as `Option String`: `none` is an absent key
(as produced by sheet_to_json for an empty cell) and `some s` a string cell.
JavaScript truthiness on such a cell is `none`/`some ""` falsy, everything
else truthy; `String(x)` renders an absent value as "undefined".
-/

namespace ExcelApp

/-- A spreadsheet row restricted to the seven columns the server reads. -/
structure Row where
  pNo : Option String
  mobileNo : Option String
  name : Option String
  trade : Option String
  gender : Option String
  day1 : Option String
  day2 : Option String
deriving DecidableEq, Repr, Inhabited

/-- A stored participant record (the object built at script.js:495-504). -/
structure Participant where
  p_no : String
  mobile_no : String
  name : String
  trade : String
  gender : String
  attendance_day1 : String
  attendance_day2 : String
  created_at : String
deriving DecidableEq, Repr, Inhabited

/-- JavaScript truthiness of an optional string cell. -/
def truthy : Option String → Bool
  | none => false
  | some s => s ≠ ""

/-- Embedding of JavaScript `String(x)` on a cell: `undefined` prints as "undefined". -/
def cellStr : Option String → String
  | none => "undefined"
  | some s => s

/-- Membership test of a raw cell value in a set of seen string values,
embedding `set.has(row[col])` / `map.has(row[col])`. -/
def seenHas (o : Option String) (seen : List String) : Bool :=
  match o with
  | none => false
  | some s => seen.contains s

/-- Embedding of `if (row[col]) set.add(row[col])`. -/
def addIfTruthy (o : Option String) (seen : List String) : List String :=
  if truthy o then o.getD "" :: seen else seen

/-- The required column list of script.js:424. -/
def requiredColumns : List String :=
  ["P.No", "Mobile No", "Name", "Trade", "Gender", "Attendance Day 1", "Attendance Day 2"]

/-- Column access by name, embedding `row[col]` for the seven known columns. -/
def getCol (r : Row) : String → Option String
  | "P.No" => r.pNo
  | "Mobile No" => r.mobileNo
  | "Name" => r.name
  | "Trade" => r.trade
  | "Gender" => r.gender
  | "Attendance Day 1" => r.day1
  | "Attendance Day 2" => r.day2
  | _ => none

/-- Embedding of `requiredColumns.filter(col => !firstRow.hasOwnProperty(col))`. -/
def missingColumnsOf (first : Row) : List String :=
  requiredColumns.filter (fun c => !(getCol first c).isSome)

/-- The `jsonData[0] || {}` fallback row. -/
def emptyRow : Row := ⟨none, none, none, none, none, none, none⟩

/-- Characters the ECMAScript `trim` removes (whitespace and line terminators). -/
def jsWhitespace (c : Char) : Bool :=
  c.toNat == 9 || c.toNat == 10 || c.toNat == 11 || c.toNat == 12 || c.toNat == 13 ||
    c.toNat == 32 || c.toNat == 160 || c.toNat == 0x2028 || c.toNat == 0x2029 ||
    c.toNat == 0xFEFF

/-- Embedding of `s.toUpperCase()`. -/
def jsToUpper (s : String) : String := ⟨s.data.map Char.toUpper⟩

/-- Embedding of `s.toLowerCase()`. -/
def jsToLower (s : String) : String := ⟨s.data.map Char.toLower⟩

/-- Embedding of `s.trim()`. -/
def jsTrim (s : String) : String :=
  ⟨((s.data.dropWhile jsWhitespace).reverse.dropWhile jsWhitespace).reverse⟩

/-- Error message of script.js:443. -/
def msgMissing (i : Nat) : String :=
  "Row " ++ toString (i + 2) ++ ": Missing required fields (P.No, Mobile No, or Name)"

/-- Error message of script.js:448. -/
def msgDupPNo (i : Nat) (v : String) : String :=
  "Row " ++ toString (i + 2) ++ ": Duplicate P.No \x27" ++ v ++ "\x27"

/-- Error message of script.js:451. -/
def msgDupMobile (i : Nat) (v : String) : String :=
  "Row " ++ toString (i + 2) ++ ": Duplicate Mobile No \x27" ++ v ++ "\x27"

/-- Error message of script.js:463. -/
def msgBadDay1 (i : Nat) (v : String) : String :=
  "Row " ++ toString (i + 2) ++ ": Invalid value for Attendance Day 1 (expected P or A, got " ++ v ++ ")"

/-- Error message of script.js:467. -/
def msgBadDay2 (i : Nat) (v : String) : String :=
  "Row " ++ toString (i + 2) ++ ": Invalid value for Attendance Day 2 (expected P or A, got " ++ v ++ ")"

/-- Embedding of `['P', 'A'].includes(s)`. -/
def isPA (s : String) : Bool := s == "P" || s == "A"

/-- The validation errors one iteration of the forEach at script.js:440-469
pushes for a single row, given the seen-sets as they stand before this row. -/
def rowErrors (seenP seenM : List String) (i : Nat) (r : Row) : List String :=
  (if !truthy r.pNo || !truthy r.mobileNo || !truthy r.name then [msgMissing i] else [])
    ++ (if seenHas r.pNo seenP then [msgDupPNo i (cellStr r.pNo)] else [])
    ++ (if seenHas r.mobileNo seenM then [msgDupMobile i (cellStr r.mobileNo)] else [])
    ++ (if !isPA (jsTrim (jsToUpper (cellStr r.day1))) then [msgBadDay1 i (cellStr r.day1)] else [])
    ++ (if !isPA (jsTrim (jsToUpper (cellStr r.day2))) then [msgBadDay2 i (cellStr r.day2)] else [])

/-- The forEach of script.js:440-469: accumulates each row's errors while
threading the two seen-sets; `i` is the 0-based index of the first row. -/
def validateAux (seenP seenM : List String) (i : Nat) : List Row → List String
  | [] => []
  | r :: rs =>
      rowErrors seenP seenM i r
        ++ validateAux (addIfTruthy r.pNo seenP) (addIfTruthy r.mobileNo seenM) (i + 1) rs

/-- The full `validationErrors` list for a batch (script.js:436-469). -/
def validationErrors (rows : List Row) : List String :=
  validateAux [] [] 0 rows

/-- Record conversion at script.js:495-504: attendance is uppercased but not
trimmed; trade and gender default to the empty string when falsy. -/
def mkParticipant (now : String) (r : Row) : Participant :=
  { p_no := cellStr r.pNo
    mobile_no := cellStr r.mobileNo
    name := cellStr r.name
    trade := (r.trade.getD "")
    gender := (r.gender.getD "")
    attendance_day1 := jsToUpper (cellStr r.day1)
    attendance_day2 := jsToUpper (cellStr r.day2)
    created_at := now }

/-- Keys of the `duplicateCheck` map after seeding it from the store
(script.js:479-483): every record contributes its `p_no` and its `mobile_no`. -/
def storeKeys (ps : List Participant) : List String :=
  ps.foldl (fun acc p => p.mobile_no :: p.p_no :: acc) []

/-- The insertion forEach at script.js:488-510: a row matching any key of the
running `duplicateCheck` map is skipped, otherwise it is converted and its two
keys are added to the map; returns the new records and the insert count. -/
def insertLoop (now : String) (keys : List String) : List Row → List Participant × Nat
  | [] => ([], 0)
  | r :: rs =>
      if seenHas r.pNo keys || seenHas r.mobileNo keys then
        insertLoop now keys rs
      else
        let p := mkParticipant now r
        let rest := insertLoop now (p.p_no :: p.mobile_no :: keys) rs
        (p :: rest.1, rest.2 + 1)

/-- Server state: the in-memory array and the durable snapshot file. -/
structure ServerState where
  participants : List Participant
  snapshot : List Participant
deriving DecidableEq, Repr

/-- The three JSON response shapes of POST /api/upload (after file parsing). -/
inductive UploadResponse where
  | schemaError (error : String) (missingColumns : List String)
  | validationFailed (error : String) (validationErrors : List String)
  | ok (message : String) (insertedRecords : Nat) (duplicatesSkipped : Nat)
deriving DecidableEq, Repr

/-- The upload handler body (script.js:411-528) on already-parsed rows:
column check, row validation, cross-batch dedup, append, snapshot save. -/
def uploadHandler (st : ServerState) (rows : List Row) (now : String) :
    ServerState × UploadResponse :=
  let missing := missingColumnsOf (rows.headD emptyRow)
  if missing.isEmpty then
    let errs := validationErrors rows
    if errs.isEmpty then
      let res := insertLoop now (storeKeys st.participants) rows
      let newStore := st.participants ++ res.1
      (⟨newStore, newStore⟩,
        .ok ("Successfully processed " ++ toString rows.length ++ " records")
          res.2 (rows.length - res.2))
    else
      (st, .validationFailed "Validation failed" errs)
  else
    (st, .schemaError ("Missing required columns: " ++ String.intercalate ", " missing) missing)

/-- Search query filters as they arrive from req.query: absent or a string. -/
structure SearchQuery where
  p_no : Option String
  mobile_no : Option String
  name : Option String
  trade : Option String
  gender : Option String
deriving DecidableEq, Repr

/-- The query with no filter supplied. -/
def noFilters : SearchQuery := ⟨none, none, none, none, none⟩

/-- Embedding of `hay.includes(needle)` on character lists. -/
def listHasInfix (needle : List Char) : List Char → Bool
  | [] => needle.isEmpty
  | c :: t => needle.isPrefixOf (c :: t) || listHasInfix needle t

/-- Embedding of JavaScript `hay.includes(needle)` (substring containment). -/
def jsIncludes (hay needle : String) : Bool :=
  listHasInfix needle.data hay.data

/-- The five sequential filters of script.js:535-554; each is applied only
when its query parameter is truthy (present and non-empty). -/
def filterParticipants (ps : List Participant) (q : SearchQuery) : List Participant :=
  let l1 := if truthy q.p_no then
      ps.filter (fun p => jsIncludes (jsToLower p.p_no) (jsToLower (q.p_no.getD ""))) else ps
  let l2 := if truthy q.mobile_no then
      l1.filter (fun p => jsIncludes p.mobile_no (q.mobile_no.getD "")) else l1
  let l3 := if truthy q.name then
      l2.filter (fun p => jsIncludes (jsToLower p.name) (jsToLower (q.name.getD ""))) else l2
  let l4 := if truthy q.trade then
      l3.filter (fun p => p.trade == q.trade.getD "") else l3
  let l5 := if truthy q.gender then
      l4.filter (fun p => p.gender == q.gender.getD "") else l4
  l5

/-- Embedding of `Array.prototype.slice(s, e)`: negative indices count from
the end, then both are clamped to `[0, len]` and the segment is taken. -/
def jsSlice {α : Type} (l : List α) (s e : Int) : List α :=
  let len : Int := l.length
  let s1 : Int := if s < 0 then max (len + s) 0 else min s len
  let e1 : Int := if e < 0 then max (len + e) 0 else min e len
  (l.drop s1.toNat).take (e1 - s1).toNat

/-- Pagination metadata of the search response (script.js:567-574). -/
structure Pagination where
  total : Nat
  page : Int
  totalPages : Nat
  limit : Nat
  hasNext : Bool
  hasPrev : Bool
deriving DecidableEq, Repr

/-- Body of the 200 response of GET /api/participants. -/
structure SearchResponse where
  participants : List Participant
  pagination : Pagination
deriving DecidableEq, Repr

/-- The search handler (script.js:531-576). `page` models `parseInt(page)`
over all integers; `limit` models `parseInt(limit)` for the positive values
(so `Math.ceil(total / limit)` is the exact `(total + limit - 1) / limit`).
The handler always answers 200 with this body: it has no rejection branch. -/
def searchHandler (ps : List Participant) (q : SearchQuery) (page : Int) (limit : Nat) :
    SearchResponse :=
  let filtered := filterParticipants ps q
  let total := filtered.length
  let totalPages := (total + limit - 1) / limit
  let startIndex : Int := (page - 1) * limit
  let endIndex : Int := min (startIndex + limit) total
  { participants := jsSlice filtered startIndex endIndex
    pagination :=
      { total := total
        page := page
        totalPages := totalPages
        limit := limit
        hasNext := decide (page < (totalPages : Int))
        hasPrev := decide (1 < page) } }

/-- The two response shapes of GET /api/participants/:p_no. -/
inductive DetailResponse where
  | found (p : Participant)
  | notFound (status : Nat) (error : String)
deriving DecidableEq, Repr

/-- The detail-lookup handler (script.js:579-589): first exact `p_no` match
or a 404 body; it is a total function, so no request throws. -/
def detailHandler (ps : List Participant) (pNo : String) : DetailResponse :=
  match ps.find? (fun p => p.p_no == pNo) with
  | some p => .found p
  | none => .notFound 404 "Participant not found"

/-! Derived characterizations of the validation pass. -/

/-- The seen-set a column accumulates over a list of rows, starting from `init`. -/
def seenFold (f : Row → Option String) (init : List String) (rows : List Row) : List String :=
  rows.foldl (fun acc r => addIfTruthy (f r) acc) init

/-- The errors the validation forEach produces for the row at 0-based index `i`. -/
def errorsOfRow (rows : List Row) (i : Nat) : List String :=
  rowErrors (seenFold Row.pNo [] (rows.take i)) (seenFold Row.mobileNo [] (rows.take i)) i
    (rows.getD i emptyRow)

/-- The keys of the `duplicateCheck` map after the insertion loop has walked
the given rows, starting from `keys`. -/
def keysAfter (keys : List String) : List Row → List String
  | [] => keys
  | r :: rs =>
      if seenHas r.pNo keys || seenHas r.mobileNo keys then keysAfter keys rs
      else keysAfter (cellStr r.pNo :: cellStr r.mobileNo :: keys) rs

/-- The skip test of script.js:490 against a key set. -/
def skipCond (keys : List String) (r : Row) : Bool :=
  seenHas r.pNo keys || seenHas r.mobileNo keys

/-- The records the upload appends for a batch, in order. -/
def insertedRecords (st : ServerState) (rows : List Row) (now : String) : List Participant :=
  (insertLoop now (storeKeys st.participants) rows).1

/-- The contribution of the row at index `j` to the appended records: nothing
when the running key set already holds one of its keys, else its conversion. -/
def insertPiece (st : ServerState) (rows : List Row) (now : String) (j : Nat) :
    List Participant :=
  if skipCond (keysAfter (storeKeys st.participants) (rows.take j)) (rows.getD j emptyRow)
  then [] else [mkParticipant now (rows.getD j emptyRow)]

/-! Concrete inputs used by witnesses and counterexamples. -/

/-- A server state with empty store and empty snapshot. -/
def stEmpty : ServerState := ⟨[], []⟩

/-- A fully valid row. -/
def rowA : Row :=
  ⟨some "P1", some "M1", some "Alice", some "Weld", some "F", some "P", some "A"⟩

/-- A row repeating rowA's P.No. -/
def rowDupA : Row :=
  ⟨some "P1", some "M2", some "Bob", some "Weld", some "M", some "A", some "A"⟩

/-- A row with an invalid Attendance Day 1 value. -/
def rowBad : Row :=
  ⟨some "P9", some "M9", some "Nia", some "T", some "G", some "X", some "A"⟩

/-- A row whose Trade column is absent. -/
def rowNoTrade : Row :=
  ⟨some "P1", some "M1", some "Nia", none, some "G", some "P", some "A"⟩

/-- A valid row whose Mobile No is the string "X". -/
def crossRow1 : Row :=
  ⟨some "1", some "X", some "R1", some "T", some "G", some "P", some "P"⟩

/-- A valid row whose P.No is the string "X": it collides with crossRow1's
Mobile No in the merged key space, though the two share no column value. -/
def crossRow2 : Row :=
  ⟨some "X", some "2", some "R2", some "T", some "G", some "P", some "P"⟩

/-- A valid row whose Attendance Day 1 is " p ": it passes validation only
after trimming. -/
def rowTrimP : Row :=
  ⟨some "PT", some "MT", some "Tia", some "T", some "G", some " p ", some "A"⟩

/-- A stored participant whose mobile_no is "X". -/
def pX : Participant := ⟨"PX", "X", "Xan", "T", "G", "P", "A", "t"⟩

/-- A server state holding only pX. -/
def stCross : ServerState := ⟨[pX], [pX]⟩

/-- A valid row whose P.No equals pX's mobile_no and collides with nothing else. -/
def rowCross : Row :=
  ⟨some "X", some "M7", some "Cro", some "T", some "G", some "P", some "A"⟩

/-- A stored participant. -/
def pA : Participant := ⟨"A1", "111", "Ann", "T", "F", "P", "A", "t"⟩

/-- Another stored participant. -/
def pB : Participant := ⟨"B2", "222", "Ben", "T", "M", "P", "A", "t"⟩

/-- A stored participant with trade "Welding" and gender "M". -/
def pWeld : Participant := ⟨"W1", "900", "Wendy", "Welding", "M", "P", "A", "t"⟩

/-- A query filtering on trade "Welding" and gender "M". -/
def qWeld : SearchQuery := ⟨none, none, none, some "Welding", some "M"⟩

/-- A store of 25 distinct records, for the pagination example. -/
def store25 : List Participant :=
  (List.range 25).map (fun i =>
    ⟨"P" ++ toString i, "M" ++ toString i, "N" ++ toString i, "T", "G", "P", "A", "t"⟩)

theorem seenFold_cons (f : Row → Option String) (init : List String) (r : Row) (rs : List Row) :
    seenFold f init (r :: rs) = seenFold f (addIfTruthy (f r) init) rs := rfl

theorem mem_seenFold (f : Row → Option String) (s : String) (rows : List Row) :
    ∀ init : List String,
      s ∈ seenFold f init rows ↔
        s ∈ init ∨ ∃ r ∈ rows, truthy (f r) = true ∧ (f r).getD "" = s := by
  induction rows with
  | nil => intro init; simp [seenFold]
  | cons r rs ih =>
      intro init
      rw [seenFold_cons, ih]
      by_cases h : truthy (f r) = true
      · simp only [addIfTruthy, h, if_true, List.mem_cons]
        constructor
        · rintro ((rfl | hs) | ⟨r', hr', ht, he⟩)
          · exact Or.inr ⟨r, Or.inl rfl, h, rfl⟩
          · exact Or.inl hs
          · exact Or.inr ⟨r', Or.inr hr', ht, he⟩
        · rintro (hs | ⟨r', rfl | hr', ht, he⟩)
          · exact Or.inl (Or.inr hs)
          · exact Or.inl (Or.inl he.symm)
          · exact Or.inr ⟨r', hr', ht, he⟩
      · simp only [addIfTruthy, h, if_false, List.mem_cons]
        constructor
        · rintro (hs | ⟨r', hr', ht, he⟩)
          · exact Or.inl hs
          · exact Or.inr ⟨r', Or.inr hr', ht, he⟩
        · rintro (hs | ⟨r', rfl | hr', ht, he⟩)
          · exact Or.inl hs
          · exact absurd ht h
          · exact Or.inr ⟨r', hr', ht, he⟩

theorem validateAux_eq (rows : List Row) :
    ∀ (seenP seenM : List String) (k : Nat),
      validateAux seenP seenM k rows =
        (List.range rows.length).flatMap (fun j =>
          rowErrors (seenFold Row.pNo seenP (rows.take j))
            (seenFold Row.mobileNo seenM (rows.take j)) (k + j) (rows.getD j emptyRow)) := by
  induction rows with
  | nil => intro seenP seenM k; rfl
  | cons r rs ih =>
      intro seenP seenM k
      show rowErrors seenP seenM k r ++ validateAux _ _ (k + 1) rs = _
      rw [ih, List.length_cons, List.range_succ_eq_map, List.flatMap_cons, List.flatMap_map]
      congr 1
      · simp only [Nat.succ_eq_add_one, List.take_succ_cons, seenFold_cons, List.getD_cons_succ,
          Nat.add_assoc, Nat.add_comm 1]

theorem validationErrors_eq_flat (rows : List Row) :
    validationErrors rows = (List.range rows.length).flatMap (errorsOfRow rows) := by
  rw [validationErrors, validateAux_eq]
  congr 1
  funext j
  simp [errorsOfRow]

theorem truthy_iff (o : Option String) : truthy o = true ↔ ∃ s, o = some s ∧ s ≠ "" := by
  cases o <;> simp [truthy]

theorem seenHas_iff (o : Option String) (seen : List String) :
    seenHas o seen = true ↔ ∃ s, o = some s ∧ s ∈ seen := by
  cases o <;> simp [seenHas]

theorem seenHas_seenFold_iff (f : Row → Option String) (o : Option String) (rows : List Row) :
    seenHas o (seenFold f [] rows) = true ↔
      ∃ r ∈ rows, truthy (f r) = true ∧ f r = o := by
  rw [seenHas_iff]
  constructor
  · rintro ⟨s, rfl, hs⟩
    rcases (mem_seenFold f s rows []).mp hs with h | ⟨r, hr, ht, he⟩
    · simp at h
    · refine ⟨r, hr, ht, ?_⟩
      rcases (truthy_iff _).mp ht with ⟨t, hft, -⟩
      rw [hft] at he ⊢
      simp at he
      rw [he]
  · rintro ⟨r, hr, ht, he⟩
    rcases (truthy_iff _).mp ht with ⟨t, hft, hne⟩
    refine ⟨t, by rw [← he, hft], ?_⟩
    exact (mem_seenFold f t rows []).mpr (Or.inr ⟨r, hr, ht, by rw [hft]; rfl⟩)

theorem rowErrors_ne_nil_iff (sP sM : List String) (i : Nat) (r : Row) :
    rowErrors sP sM i r ≠ [] ↔
      ((!truthy r.pNo || !truthy r.mobileNo || !truthy r.name) = true
        ∨ seenHas r.pNo sP = true
        ∨ seenHas r.mobileNo sM = true
        ∨ (!isPA (jsTrim (jsToUpper (cellStr r.day1)))) = true
        ∨ (!isPA (jsTrim (jsToUpper (cellStr r.day2)))) = true) := by
  unfold rowErrors
  split_ifs <;> simp_all

theorem mem_if_singleton {α : Type} {c : Prop} [Decidable c] {x e : α}
    (h : e ∈ (if c then [x] else [])) : e = x := by
  split at h <;> simp_all

theorem errorsOfRow_prefixed (rows : List Row) (i : Nat) :
    ∀ e ∈ errorsOfRow rows i, ∃ rest, e = "Row " ++ toString (i + 2) ++ rest := by
  intro e he
  unfold errorsOfRow rowErrors at he
  simp only [List.mem_append] at he
  rcases he with ((((he | he) | he) | he) | he)
  · exact ⟨": Missing required fields (P.No, Mobile No, or Name)",
      by rw [mem_if_singleton he]; rfl⟩
  · exact ⟨": Duplicate P.No \x27" ++ cellStr (rows.getD i emptyRow).pNo ++ "\x27",
      by rw [mem_if_singleton he]; simp [msgDupPNo, String.append_assoc]⟩
  · exact ⟨": Duplicate Mobile No \x27" ++ cellStr (rows.getD i emptyRow).mobileNo ++ "\x27",
      by rw [mem_if_singleton he]; simp [msgDupMobile, String.append_assoc]⟩
  · exact ⟨": Invalid value for Attendance Day 1 (expected P or A, got "
        ++ cellStr (rows.getD i emptyRow).day1 ++ ")",
      by rw [mem_if_singleton he]; simp [msgBadDay1, String.append_assoc]⟩
  · exact ⟨": Invalid value for Attendance Day 2 (expected P or A, got "
        ++ cellStr (rows.getD i emptyRow).day2 ++ ")",
      by rw [mem_if_singleton he]; simp [msgBadDay2, String.append_assoc]⟩

/-- C2: a row of an uploaded batch gets at least one validation error exactly
when its P.No, Mobile No or Name is missing or empty, or its P.No or Mobile No
repeats a non-empty same-column value of an earlier row of the batch, or an
attendance value is not P or A after uppercasing and trimming; the full error
list is the concatenation of the per-row errors, and each error message names
the row as its 0-based index plus 2 (header counted as row 1). -/
theorem row_error_characterization (rows : List Row) (i : Nat) (_hi : i < rows.length) :
    (validationErrors rows = (List.range rows.length).flatMap (errorsOfRow rows))
    ∧ (errorsOfRow rows i ≠ [] ↔
        ((truthy (rows.getD i emptyRow).pNo = false
            ∨ truthy (rows.getD i emptyRow).mobileNo = false
            ∨ truthy (rows.getD i emptyRow).name = false)
          ∨ (∃ r ∈ rows.take i, truthy r.pNo = true ∧ r.pNo = (rows.getD i emptyRow).pNo)
          ∨ (∃ r ∈ rows.take i,
              truthy r.mobileNo = true ∧ r.mobileNo = (rows.getD i emptyRow).mobileNo)
          ∨ ¬(jsTrim (jsToUpper (cellStr (rows.getD i emptyRow).day1)) = "P"
              ∨ jsTrim (jsToUpper (cellStr (rows.getD i emptyRow).day1)) = "A")
          ∨ ¬(jsTrim (jsToUpper (cellStr (rows.getD i emptyRow).day2)) = "P"
              ∨ jsTrim (jsToUpper (cellStr (rows.getD i emptyRow).day2)) = "A")))
    ∧ (∀ e ∈ errorsOfRow rows i, ∃ rest, e = "Row " ++ toString (i + 2) ++ rest) := by
  refine ⟨validationErrors_eq_flat rows, ?_, errorsOfRow_prefixed rows i⟩
  rw [errorsOfRow, rowErrors_ne_nil_iff]
  apply or_congr
  · simp [or_assoc]
  apply or_congr
  · exact seenHas_seenFold_iff Row.pNo _ _
  apply or_congr
  · exact seenHas_seenFold_iff Row.mobileNo _ _
  apply or_congr
  · simp [isPA]
  · simp [isPA]

theorem row_error_characterization_witness :
    1 < ([rowA, rowDupA] : List Row).length ∧ errorsOfRow [rowA, rowDupA] 1 ≠ [] :=
  ⟨by decide, (row_error_characterization [rowA, rowDupA] 1 (by decide)).2.1.mpr (by decide)⟩

/-- C3: if row validation produced any error, the upload of that batch fails
as a whole, the response carries the entire accumulated error list (not just
the first error), and the server state is unchanged: nothing is appended to
the store and the durable snapshot is not rewritten. -/
theorem upload_validation_failure_atomic (st : ServerState) (rows : List Row) (now : String)
    (hcols : missingColumnsOf (rows.headD emptyRow) = [])
    (herr : validationErrors rows ≠ []) :
    uploadHandler st rows now =
      (st, .validationFailed "Validation failed" (validationErrors rows)) := by
  have hcols' : missingColumnsOf (rows.head?.getD emptyRow) = [] := by
    rw [← List.headD_eq_head?_getD]; exact hcols
  simp [uploadHandler, hcols', List.isEmpty_iff, herr]

theorem upload_validation_failure_atomic_witness :
    missingColumnsOf (([rowBad] : List Row).headD emptyRow) = []
    ∧ validationErrors [rowBad] ≠ []
    ∧ uploadHandler stEmpty [rowBad] "t" =
        (stEmpty, .validationFailed "Validation failed" (validationErrors [rowBad])) :=
  ⟨by decide, by decide,
    upload_validation_failure_atomic stEmpty [rowBad] "t" (by decide) (by decide)⟩

/-- C8: when any required column is absent from the first row's keys, the
upload fails with a schema error naming exactly the missing columns (the
required columns absent from the first row, in their canonical order), zero
records are inserted, and the server state is unchanged; the result is built
from the first row alone, so no row-level validation contributes to it. -/
theorem upload_missing_columns_reject (st : ServerState) (rows : List Row) (now : String)
    (h : missingColumnsOf (rows.headD emptyRow) ≠ []) :
    uploadHandler st rows now =
      (st, .schemaError
        ("Missing required columns: "
          ++ String.intercalate ", " (missingColumnsOf (rows.headD emptyRow)))
        (missingColumnsOf (rows.headD emptyRow))) := by
  have h' : missingColumnsOf (rows.head?.getD emptyRow) ≠ [] := by
    rw [← List.headD_eq_head?_getD]; exact h
  simp [uploadHandler, List.isEmpty_iff, h']

theorem upload_missing_columns_reject_witness :
    missingColumnsOf (([rowNoTrade] : List Row).headD emptyRow) ≠ []
    ∧ uploadHandler stEmpty [rowNoTrade] "t" =
        (stEmpty, .schemaError
          ("Missing required columns: "
            ++ String.intercalate ", "
              (missingColumnsOf (([rowNoTrade] : List Row).headD emptyRow)))
          (missingColumnsOf (([rowNoTrade] : List Row).headD emptyRow))) :=
  ⟨by decide, upload_missing_columns_reject stEmpty [rowNoTrade] "t" (by decide)⟩

theorem keysAfter_nil (keys : List String) : keysAfter keys [] = keys := rfl

theorem keysAfter_cons (keys : List String) (r : Row) (rs : List Row) :
    keysAfter keys (r :: rs) =
      if skipCond keys r then keysAfter keys rs
      else keysAfter (cellStr r.pNo :: cellStr r.mobileNo :: keys) rs := rfl

theorem insertLoop_cons (now : String) (keys : List String) (r : Row) (rs : List Row) :
    insertLoop now keys (r :: rs) =
      if skipCond keys r then insertLoop now keys rs
      else
        (mkParticipant now r :: (insertLoop now (cellStr r.pNo :: cellStr r.mobileNo :: keys) rs).1,
          (insertLoop now (cellStr r.pNo :: cellStr r.mobileNo :: keys) rs).2 + 1) := rfl

theorem insertLoop_count (now : String) (rows : List Row) :
    ∀ keys, (insertLoop now keys rows).2 = (insertLoop now keys rows).1.length := by
  induction rows with
  | nil => intro keys; rfl
  | cons r rs ih =>
      intro keys
      rw [insertLoop_cons]
      split
      · exact ih keys
      · simp [ih]

theorem insertLoop_count_le (now : String) (rows : List Row) :
    ∀ keys, (insertLoop now keys rows).2 ≤ rows.length := by
  induction rows with
  | nil => intro keys; exact Nat.le_refl 0
  | cons r rs ih =>
      intro keys
      rw [insertLoop_cons, List.length_cons]
      split
      · exact Nat.le_succ_of_le (ih keys)
      · exact Nat.succ_le_succ (ih _)

theorem insertLoop_eq_flat (now : String) (rows : List Row) :
    ∀ keys, (insertLoop now keys rows).1 =
      (List.range rows.length).flatMap (fun j =>
        if skipCond (keysAfter keys (rows.take j)) (rows.getD j emptyRow) then []
        else [mkParticipant now (rows.getD j emptyRow)]) := by
  induction rows with
  | nil => intro keys; rfl
  | cons r rs ih =>
      intro keys
      rw [insertLoop_cons, List.length_cons, List.range_succ_eq_map, List.flatMap_cons,
        List.flatMap_map]
      simp only [Nat.succ_eq_add_one, List.take_succ_cons, keysAfter_cons, List.getD_cons_succ,
        List.take_zero, keysAfter_nil, List.getD_cons_zero]
      by_cases h : skipCond keys r = true <;> simp [h, ih]

theorem mem_storeKeysAux (ps : List Participant) (s : String) :
    ∀ init : List String,
      s ∈ ps.foldl (fun acc p => p.mobile_no :: p.p_no :: acc) init ↔
        s ∈ init ∨ ∃ p ∈ ps, s = p.p_no ∨ s = p.mobile_no := by
  induction ps with
  | nil => intro init; simp
  | cons p ps ih =>
      intro init
      rw [List.foldl_cons, ih]
      constructor
      · rintro (hs | ⟨q, hq, hqq⟩)
        · rcases List.mem_cons.mp hs with rfl | hs2
          · exact Or.inr ⟨p, List.mem_cons_self .., Or.inr rfl⟩
          · rcases List.mem_cons.mp hs2 with rfl | hs3
            · exact Or.inr ⟨p, List.mem_cons_self .., Or.inl rfl⟩
            · exact Or.inl hs3
        · exact Or.inr ⟨q, List.mem_cons_of_mem _ hq, hqq⟩
      · rintro (hs | ⟨q, hq, hqq⟩)
        · exact Or.inl (List.mem_cons_of_mem _ (List.mem_cons_of_mem _ hs))
        · rcases List.mem_cons.mp hq with rfl | hq2
          · rcases hqq with rfl | rfl
            · exact Or.inl (List.mem_cons_of_mem _ (List.mem_cons_self ..))
            · exact Or.inl (List.mem_cons_self ..)
          · exact Or.inr ⟨q, hq2, hqq⟩

theorem mem_storeKeys_iff (ps : List Participant) (s : String) :
    s ∈ storeKeys ps ↔ ∃ p ∈ ps, s = p.p_no ∨ s = p.mobile_no := by
  rw [storeKeys, mem_storeKeysAux]
  simp

theorem subset_keysAfter (rows : List Row) :
    ∀ keys, keys ⊆ keysAfter keys rows := by
  induction rows with
  | nil => intro keys; exact fun s hs => hs
  | cons r rs ih =>
      intro keys
      rw [keysAfter_cons]
      split
      · exact ih keys
      · exact fun s hs => ih _ (List.mem_cons_of_mem _ (List.mem_cons_of_mem _ hs))

/-- C4 (amended): for every validated batch the response is ok with
inserted + duplicatesSkipped = totalRows; the appended records are exactly
the in-order conversions of the non-skipped rows, where a row is skipped
exactly when its P.No or Mobile No is already a key of the running duplicate
map, seeded with every stored record's p_no and mobile_no and extended with
the keys of each row inserted earlier in the same batch. Skipped rows
produce no error. (The claim's "matches a record already in the Store before
this upload" is too narrow: the map also grows during the batch.) -/
theorem upload_counts_and_order (st : ServerState) (rows : List Row) (now : String)
    (hcols : missingColumnsOf (rows.headD emptyRow) = [])
    (herr : validationErrors rows = []) :
    uploadHandler st rows now =
      (⟨st.participants ++ insertedRecords st rows now,
          st.participants ++ insertedRecords st rows now⟩,
        .ok ("Successfully processed " ++ toString rows.length ++ " records")
          (insertedRecords st rows now).length
          (rows.length - (insertedRecords st rows now).length))
    ∧ insertedRecords st rows now =
        (List.range rows.length).flatMap (insertPiece st rows now)
    ∧ (insertedRecords st rows now).length
        + (rows.length - (insertedRecords st rows now).length) = rows.length := by
  have hcols' : missingColumnsOf (rows.head?.getD emptyRow) = [] := by
    rw [← List.headD_eq_head?_getD]; exact hcols
  have hlen : (insertedRecords st rows now).length ≤ rows.length := by
    rw [insertedRecords, ← insertLoop_count]
    exact insertLoop_count_le now rows _
  refine ⟨?_, ?_, by omega⟩
  · simp [uploadHandler, hcols', herr, insertedRecords, insertLoop_count]
  · rw [insertedRecords, insertLoop_eq_flat]
    rfl

theorem upload_counts_and_order_witness :
    missingColumnsOf (([rowA] : List Row).headD emptyRow) = []
    ∧ validationErrors [rowA] = []
    ∧ (uploadHandler stEmpty [rowA] "t" =
        (⟨stEmpty.participants ++ insertedRecords stEmpty [rowA] "t",
            stEmpty.participants ++ insertedRecords stEmpty [rowA] "t"⟩,
          .ok ("Successfully processed " ++ toString ([rowA] : List Row).length ++ " records")
            (insertedRecords stEmpty [rowA] "t").length
            (([rowA] : List Row).length - (insertedRecords stEmpty [rowA] "t").length))
      ∧ insertedRecords stEmpty [rowA] "t" =
          (List.range ([rowA] : List Row).length).flatMap (insertPiece stEmpty [rowA] "t")
      ∧ (insertedRecords stEmpty [rowA] "t").length
          + (([rowA] : List Row).length - (insertedRecords stEmpty [rowA] "t").length)
          = ([rowA] : List Row).length) :=
  ⟨by decide, by decide, upload_counts_and_order stEmpty [rowA] "t" (by decide) (by decide)⟩

/-- C4 fails as stated: with an empty store (so nothing can match a record
already in the Store), a validated two-row batch still reports one skipped
row, because crossRow2's P.No equals crossRow1's Mobile No and the duplicate
map grows during the insertion pass. -/
theorem upload_counts_counterexample :
    stEmpty.participants = []
    ∧ (uploadHandler stEmpty [crossRow1, crossRow2] "t").2 =
        .ok "Successfully processed 2 records" 1 1
    ∧ (uploadHandler stEmpty [crossRow1, crossRow2] "t").1.participants =
        [mkParticipant "t" crossRow1] := by decide

/-- C9: the cross-batch duplicate test uses a single merged key set holding
every stored record's p_no and mobile_no: a batch row whose P.No or Mobile No
equals either key of any existing record contributes nothing to the appended
records, and the appended records are the concatenation of the per-row
pieces; in particular (last conjunct) a concrete row whose P.No equals an
existing record's mobile_no, with no p_no collision, is skipped. -/
theorem merged_keyset_skips (st : ServerState) (rows : List Row) (now : String) (i : Nat)
    (_hi : i < rows.length)
    (hmatch : ∃ p ∈ st.participants,
        (rows.getD i emptyRow).pNo = some p.p_no
          ∨ (rows.getD i emptyRow).pNo = some p.mobile_no
          ∨ (rows.getD i emptyRow).mobileNo = some p.p_no
          ∨ (rows.getD i emptyRow).mobileNo = some p.mobile_no) :
    insertPiece st rows now i = []
    ∧ insertedRecords st rows now =
        (List.range rows.length).flatMap (insertPiece st rows now)
    ∧ (uploadHandler stCross [rowCross] "t").2 = .ok "Successfully processed 1 records" 0 1 := by
  refine ⟨?_, ?_, by decide⟩
  · rcases hmatch with ⟨p, hp, hcase⟩
    have hkeys : ∀ s : String, s = p.p_no ∨ s = p.mobile_no →
        s ∈ keysAfter (storeKeys st.participants) (rows.take i) := by
      intro s hs
      exact subset_keysAfter (rows.take i) (storeKeys st.participants)
        ((mem_storeKeys_iff st.participants s).mpr ⟨p, hp, hs⟩)
    have hskip : skipCond (keysAfter (storeKeys st.participants) (rows.take i))
        (rows.getD i emptyRow) = true := by
      rw [skipCond, Bool.or_eq_true]
      rcases hcase with h | h | h | h
      · exact Or.inl ((seenHas_iff _ _).mpr ⟨p.p_no, h, hkeys _ (Or.inl rfl)⟩)
      · exact Or.inl ((seenHas_iff _ _).mpr ⟨p.mobile_no, h, hkeys _ (Or.inr rfl)⟩)
      · exact Or.inr ((seenHas_iff _ _).mpr ⟨p.p_no, h, hkeys _ (Or.inl rfl)⟩)
      · exact Or.inr ((seenHas_iff _ _).mpr ⟨p.mobile_no, h, hkeys _ (Or.inr rfl)⟩)
    rw [insertPiece, if_pos hskip]
  · rw [insertedRecords, insertLoop_eq_flat]
    rfl

theorem merged_keyset_skips_witness :
    0 < ([rowCross] : List Row).length ∧ insertPiece stCross [rowCross] "t" 0 = [] :=
  ⟨by decide,
    (merged_keyset_skips stCross [rowCross] "t" 0 (by decide) ⟨pX, by decide, by decide⟩).1⟩

theorem isPA_true_iff (v : String) : isPA v = true ↔ v = "P" ∨ v = "A" := by
  simp [isPA]

/-- C1 (amended): every record a validated batch appends stores the
uppercased raw attendance cell without trimming; what the invariant
guarantees is that the trimmed form of each stored attendance value is
exactly "P" or "A". (A cell that validated only after trimming, such as
" p ", is stored as " P ", not as "P" — see the counterexample.) -/
theorem appended_attendance_trim_valid (st : ServerState) (rows : List Row) (now : String)
    (herr : validationErrors rows = []) :
    ∀ p ∈ (uploadHandler st rows now).1.participants,
      p ∈ st.participants ∨
        ((jsTrim p.attendance_day1 = "P" ∨ jsTrim p.attendance_day1 = "A")
          ∧ (jsTrim p.attendance_day2 = "P" ∨ jsTrim p.attendance_day2 = "A")) := by
  intro p hp
  rw [uploadHandler] at hp
  by_cases hcols : (missingColumnsOf (rows.headD emptyRow)).isEmpty = true
  · rw [if_pos hcols] at hp
    have herr' : (validationErrors rows).isEmpty = true := by
      rw [herr]; rfl
    rw [if_pos herr'] at hp
    simp only [List.mem_append] at hp
    rcases hp with hp | hp
    · exact Or.inl hp
    · right
      rw [insertLoop_eq_flat] at hp
      rw [List.mem_flatMap] at hp
      rcases hp with ⟨j, hj, hpj⟩
      rw [List.mem_range] at hj
      have hrow : errorsOfRow rows j = [] := by
        have := validationErrors_eq_flat rows
        rw [herr] at this
        exact (List.flatMap_eq_nil_iff.mp this.symm) j (List.mem_range.mpr hj)
      rw [errorsOfRow] at hrow
      have hcond : ¬((!truthy (rows.getD j emptyRow).pNo
            || !truthy (rows.getD j emptyRow).mobileNo
            || !truthy (rows.getD j emptyRow).name) = true
          ∨ seenHas (rows.getD j emptyRow).pNo (seenFold Row.pNo [] (rows.take j)) = true
          ∨ seenHas (rows.getD j emptyRow).mobileNo
              (seenFold Row.mobileNo [] (rows.take j)) = true
          ∨ (!isPA (jsTrim (jsToUpper (cellStr (rows.getD j emptyRow).day1)))) = true
          ∨ (!isPA (jsTrim (jsToUpper (cellStr (rows.getD j emptyRow).day2)))) = true) := by
        intro hd
        exact (rowErrors_ne_nil_iff _ _ _ _).mpr hd hrow
      push_neg at hcond
      obtain ⟨-, -, -, hday1, hday2⟩ := hcond
      have hp_eq : p = mkParticipant now (rows.getD j emptyRow) := by
        by_cases hskip : skipCond (keysAfter (storeKeys st.participants) (rows.take j))
            (rows.getD j emptyRow) = true
        · rw [if_pos hskip] at hpj; simp at hpj
        · rw [if_neg hskip] at hpj; simpa using hpj
      simp only [Bool.not_eq_true, Bool.not_eq_false] at hday1 hday2
      have hday1' : isPA (jsTrim (jsToUpper (cellStr (rows.getD j emptyRow).day1))) = true := by
        simpa using hday1
      have hday2' : isPA (jsTrim (jsToUpper (cellStr (rows.getD j emptyRow).day2))) = true := by
        simpa using hday2
      rw [hp_eq]
      exact ⟨(isPA_true_iff _).mp hday1', (isPA_true_iff _).mp hday2'⟩
  · rw [if_neg hcols] at hp
    exact Or.inl hp

theorem appended_attendance_trim_valid_witness :
    validationErrors [rowA] = []
    ∧ (mkParticipant "t" rowA ∈ stEmpty.participants
        ∨ ((jsTrim (mkParticipant "t" rowA).attendance_day1 = "P"
              ∨ jsTrim (mkParticipant "t" rowA).attendance_day1 = "A")
            ∧ (jsTrim (mkParticipant "t" rowA).attendance_day2 = "P"
              ∨ jsTrim (mkParticipant "t" rowA).attendance_day2 = "A"))) :=
  ⟨by decide,
    appended_attendance_trim_valid stEmpty [rowA] "t" (by decide)
      (mkParticipant "t" rowA) (by decide)⟩

/-- C1 fails as stated: a one-row batch with Attendance Day 1 " p " passes
validation (trimmed uppercase is "P") but the stored attendance_day1 is
" P ", which is neither "P" nor "A". -/
theorem attendance_stored_untrimmed_counterexample :
    (uploadHandler stEmpty [rowTrimP] "t").2 = .ok "Successfully processed 1 records" 1 0
    ∧ (uploadHandler stEmpty [rowTrimP] "t").1.participants.map
        (fun p => p.attendance_day1) = [" P "]
    ∧ (" P " : String) ≠ "P" ∧ (" P " : String) ≠ "A" := by decide

/-- C5: filtering is conjunctive over the supplied (truthy) filters: a record
is in the filtered set exactly when it is in the store and satisfies every
supplied predicate — p_no and name as case-insensitive substring, mobile_no
as case-sensitive substring, trade and gender as exact equality; with no
filter supplied the full record set is returned. -/
theorem search_filter_conjunctive (ps : List Participant) (q : SearchQuery) :
    (∀ r : Participant, r ∈ filterParticipants ps q ↔
      (r ∈ ps
        ∧ (truthy q.p_no = true →
            jsIncludes (jsToLower r.p_no) (jsToLower (q.p_no.getD "")) = true)
        ∧ (truthy q.mobile_no = true → jsIncludes r.mobile_no (q.mobile_no.getD "") = true)
        ∧ (truthy q.name = true →
            jsIncludes (jsToLower r.name) (jsToLower (q.name.getD "")) = true)
        ∧ (truthy q.trade = true → r.trade = q.trade.getD "")
        ∧ (truthy q.gender = true → r.gender = q.gender.getD "")))
    ∧ (truthy q.p_no = false → truthy q.mobile_no = false → truthy q.name = false →
        truthy q.trade = false → truthy q.gender = false → filterParticipants ps q = ps) := by
  constructor
  · intro r
    by_cases h1 : truthy q.p_no = true <;> by_cases h2 : truthy q.mobile_no = true <;>
      by_cases h3 : truthy q.name = true <;> by_cases h4 : truthy q.trade = true <;>
      by_cases h5 : truthy q.gender = true <;>
      simp [filterParticipants, h1, h2, h3, h4, h5, List.mem_filter, and_assoc] <;>
      tauto
  · intro h1 h2 h3 h4 h5
    simp [filterParticipants, h1, h2, h3, h4, h5]

theorem search_filter_conjunctive_witness :
    pWeld ∈ filterParticipants [pWeld] qWeld ↔
      (pWeld ∈ [pWeld]
        ∧ (truthy qWeld.p_no = true →
            jsIncludes (jsToLower pWeld.p_no) (jsToLower (qWeld.p_no.getD "")) = true)
        ∧ (truthy qWeld.mobile_no = true →
            jsIncludes pWeld.mobile_no (qWeld.mobile_no.getD "") = true)
        ∧ (truthy qWeld.name = true →
            jsIncludes (jsToLower pWeld.name) (jsToLower (qWeld.name.getD "")) = true)
        ∧ (truthy qWeld.trade = true → pWeld.trade = qWeld.trade.getD "")
        ∧ (truthy qWeld.gender = true → pWeld.gender = qWeld.gender.getD "")) :=
  (search_filter_conjunctive [pWeld] qWeld).1 pWeld

theorem jsSlice_nonneg {α : Type} (l : List α) (s e : Int) (hs : 0 ≤ s) (he : 0 ≤ e) :
    jsSlice l s e = (l.take e.toNat).drop s.toNat := by
  simp only [jsSlice]
  rw [if_neg (by omega), if_neg (by omega)]
  by_cases hsl : s ≤ (l.length : Int)
  · rw [min_eq_left hsl]
    by_cases hel : e ≤ (l.length : Int)
    · rw [min_eq_left hel, List.drop_take]
      congr 1
      omega
    · push_neg at hel
      rw [min_eq_right (le_of_lt hel), List.drop_take]
      have h1 : (l.drop s.toNat).take ((l.length : Int) - s).toNat = l.drop s.toNat :=
        List.take_of_length_le (by rw [List.length_drop]; omega)
      have h2 : (l.drop s.toNat).take (e.toNat - s.toNat) = l.drop s.toNat :=
        List.take_of_length_le (by rw [List.length_drop]; omega)
      rw [h1, h2]
  · push_neg at hsl
    rw [min_eq_right (le_of_lt hsl), Int.toNat_natCast, List.drop_length, List.take_nil]
    exact (List.drop_eq_nil_of_le (by rw [List.length_take]; omega)).symm

theorem searchHandler_slice_pos (ps : List Participant) (q : SearchQuery) (P limit : Nat)
    (hP : 1 ≤ P) (_hl : 1 ≤ limit) :
    (searchHandler ps q (P : Int) limit).participants =
      ((filterParticipants ps q).take
          (min (P * limit) (filterParticipants ps q).length)).drop ((P - 1) * limit) := by
  have hs_eq : ((P : Int) - 1) * (limit : Int) = (((P - 1) * limit : Nat) : Int) := by
    have h1 : ((P - 1 : Nat) : Int) = (P : Int) - 1 := by omega
    rw [← h1]
    push_cast
    ring
  have hmul : (P - 1) * limit + limit = P * limit := by
    cases P with
    | zero => omega
    | succ n => simp [Nat.succ_mul]
  have he_eq : ((P : Int) - 1) * (limit : Int) + (limit : Int)
      = ((P * limit : Nat) : Int) := by
    rw [hs_eq]
    exact_mod_cast hmul
  show jsSlice (filterParticipants ps q) (((P : Int) - 1) * (limit : Int))
      (min (((P : Int) - 1) * (limit : Int) + (limit : Int))
        ((filterParticipants ps q).length : Int)) = _
  rw [he_eq, hs_eq]
  rw [show min ((P * limit : Nat) : Int) ((filterParticipants ps q).length : Int)
      = ((min (P * limit) (filterParticipants ps q).length : Nat) : Int) from by
    push_cast; rfl]
  rw [jsSlice_nonneg (filterParticipants ps q) _ _ (by omega) (by omega),
    Int.toNat_natCast, Int.toNat_natCast]

/-- C6: for page ≥ 1 and limit ≥ 1 the search response reports total as the
filtered count, totalPages = ceil(total / limit) (0 when total is 0),
hasNext = (page < totalPages), hasPrev = (page > 1), and its record list is
the slice of the filtered records from index (page-1)*limit up to
min(page*limit, total), in store order. -/
theorem search_pagination (ps : List Participant) (q : SearchQuery) (page : Int)
    (limit : Nat) (hp : 1 ≤ page) (hl : 1 ≤ limit) :
    (searchHandler ps q page limit).pagination.total = (filterParticipants ps q).length
    ∧ (searchHandler ps q page limit).pagination.totalPages
        = ((filterParticipants ps q).length + limit - 1) / limit
    ∧ ((filterParticipants ps q).length = 0 →
        (searchHandler ps q page limit).pagination.totalPages = 0)
    ∧ (searchHandler ps q page limit).pagination.hasNext
        = decide (page <
            ((((filterParticipants ps q).length + limit - 1) / limit : Nat) : Int))
    ∧ (searchHandler ps q page limit).pagination.hasPrev = decide (1 < page)
    ∧ (searchHandler ps q page limit).participants
        = ((filterParticipants ps q).take
            (min (page.toNat * limit) (filterParticipants ps q).length)).drop
            ((page.toNat - 1) * limit) := by
  obtain ⟨P, rfl⟩ : ∃ P : Nat, page = (P : Int) :=
    ⟨page.toNat, (Int.toNat_of_nonneg (by omega)).symm⟩
  have hP : 1 ≤ P := by exact_mod_cast hp
  refine ⟨rfl, rfl, ?_, rfl, rfl, ?_⟩
  · intro h0
    show ((filterParticipants ps q).length + limit - 1) / limit = 0
    rw [h0]
    exact Nat.div_eq_of_lt (by omega)
  · rw [searchHandler_slice_pos ps q P limit hP hl]
    simp only [Int.toNat_natCast]

theorem search_pagination_witness :
    (1 : Int) ≤ 3 ∧ (1 : Nat) ≤ 10
    ∧ ((searchHandler store25 noFilters 3 10).pagination.total
          = (filterParticipants store25 noFilters).length
      ∧ (searchHandler store25 noFilters 3 10).pagination.totalPages
          = ((filterParticipants store25 noFilters).length + 10 - 1) / 10
      ∧ ((filterParticipants store25 noFilters).length = 0 →
          (searchHandler store25 noFilters 3 10).pagination.totalPages = 0)
      ∧ (searchHandler store25 noFilters 3 10).pagination.hasNext
          = decide ((3 : Int) <
              ((((filterParticipants store25 noFilters).length + 10 - 1) / 10 : Nat) : Int))
      ∧ (searchHandler store25 noFilters 3 10).pagination.hasPrev = decide ((1 : Int) < 3)
      ∧ (searchHandler store25 noFilters 3 10).participants
          = ((filterParticipants store25 noFilters).take
              (min ((3 : Int).toNat * 10) (filterParticipants store25 noFilters).length)).drop
              (((3 : Int).toNat - 1) * 10))
    ∧ (searchHandler store25 noFilters 3 10).pagination.totalPages = 3
    ∧ (searchHandler store25 noFilters 3 10).pagination.hasNext = false
    ∧ (searchHandler store25 noFilters 3 10).pagination.hasPrev = true
    ∧ (searchHandler store25 noFilters 3 10).participants
        = (filterParticipants store25 noFilters).drop 20
    ∧ (filterParticipants store25 noFilters).length = 25 :=
  ⟨by decide, by decide, search_pagination store25 noFilters 3 10 (by decide) (by decide),
    by decide, by decide, by decide, by decide, by decide⟩

/-- C7 (amended): a nonnegative page outside [1, totalPages] — page 0 or any
page beyond totalPages — yields an empty record slice, and the handler never
rejects (it is total and always answers with a 200 body). Negative pages are
excluded: JavaScript slice treats negative indices as offsets from the end,
so a negative page can return a non-empty slice (see the counterexample). -/
theorem search_out_of_range_page_empty (ps : List Participant) (q : SearchQuery)
    (page : Int) (limit : Nat) (hl : 1 ≤ limit) (hp0 : 0 ≤ page)
    (hout : page = 0
      ∨ ((((filterParticipants ps q).length + limit - 1) / limit : Nat) : Int) < page) :
    (searchHandler ps q page limit).participants = [] := by
  rcases hout with rfl | hgt
  · show jsSlice (filterParticipants ps q) (((0 : Int) - 1) * (limit : Int))
        (min (((0 : Int) - 1) * (limit : Int) + (limit : Int))
          ((filterParticipants ps q).length : Int)) = []
    have hsneg : ((0 : Int) - 1) * (limit : Int) = -(limit : Int) := by ring
    have hezero : min (((0 : Int) - 1) * (limit : Int) + (limit : Int))
        ((filterParticipants ps q).length : Int) = 0 := by
      rw [hsneg]
      rw [show -(limit : Int) + limit = 0 from by ring]
      omega
    rw [hezero, hsneg]
    simp only [jsSlice]
    rw [if_pos (show -(limit : Int) < 0 by omega), if_neg (show ¬((0 : Int) < 0) by omega)]
    rw [show ((min (0 : Int) ((filterParticipants ps q).length : Int))
        - max (((filterParticipants ps q).length : Int) + -(limit : Int)) 0).toNat = 0 from by
      omega]
    exact List.take_zero _
  · obtain ⟨P, rfl⟩ : ∃ P : Nat, page = (P : Int) :=
      ⟨page.toNat, (Int.toNat_of_nonneg hp0).symm⟩
    have htp : ((filterParticipants ps q).length + limit - 1) / limit < P := by
      exact_mod_cast hgt
    have hP : 1 ≤ P := Nat.lt_of_le_of_lt (Nat.zero_le _) htp
    have key : (filterParticipants ps q).length
        ≤ limit * (((filterParticipants ps q).length + limit - 1) / limit) := by
      have hdm := Nat.div_add_mod ((filterParticipants ps q).length + limit - 1) limit
      have hM := Nat.mod_lt ((filterParticipants ps q).length + limit - 1)
        (show 0 < limit by omega)
      generalize hx : limit * (((filterParticipants ps q).length + limit - 1) / limit) = X
        at hdm ⊢
      generalize hm : ((filterParticipants ps q).length + limit - 1) % limit = M at hdm hM
      omega
    have key2 : limit * (((filterParticipants ps q).length + limit - 1) / limit)
        ≤ limit * (P - 1) :=
      Nat.mul_le_mul (Nat.le_refl limit) (by omega)
    have hTle : (filterParticipants ps q).length ≤ (P - 1) * limit := by
      calc (filterParticipants ps q).length
          ≤ limit * (P - 1) := le_trans key key2
        _ = (P - 1) * limit := Nat.mul_comm ..
    rw [searchHandler_slice_pos ps q P limit hP hl]
    apply List.drop_eq_nil_of_le
    rw [List.length_take]
    omega

theorem search_out_of_range_page_empty_witness :
    (1 : Nat) ≤ 1 ∧ (0 : Int) ≤ 5
    ∧ ((5 : Int) = 0
        ∨ ((((filterParticipants [pA, pB] noFilters).length + 1 - 1) / 1 : Nat) : Int) < 5)
    ∧ (searchHandler [pA, pB] noFilters 5 1).participants = [] :=
  ⟨by decide, by decide, Or.inr (by decide),
    search_out_of_range_page_empty [pA, pB] noFilters 5 1 (by decide) (by decide)
      (Or.inr (by decide))⟩

/-- C7 fails as stated for negative pages: with two stored records and
limit 1, totalPages is 2, page -1 is outside [1, 2], yet the returned slice
is non-empty (JavaScript slice wraps negative indices from the end). -/
theorem negative_page_nonempty_counterexample :
    ((-1 : Int) < 1)
    ∧ (searchHandler [pA, pB] noFilters (-1) 1).pagination.totalPages = 2
    ∧ (searchHandler [pA, pB] noFilters (-1) 1).participants = [pA] := by decide

/-- C10: the detail lookup is a total function: when no stored record's p_no
equals the requested value it answers 404 with body error "Participant not
found" (and only then); when a record matches it returns a stored record
whose p_no is exactly the requested value. -/
theorem detail_lookup_total (ps : List Participant) (pNo : String) :
    (detailHandler ps pNo = .notFound 404 "Participant not found" ↔
      ∀ p ∈ ps, p.p_no ≠ pNo)
    ∧ (∀ p, detailHandler ps pNo = .found p → p ∈ ps ∧ p.p_no = pNo) := by
  constructor
  · cases hf : ps.find? (fun p => p.p_no == pNo) with
    | none =>
        simp only [detailHandler, hf]
        constructor
        · intro _ p hp
          simpa using List.find?_eq_none.mp hf p hp
        · intro _
          trivial
    | some p =>
        simp only [detailHandler, hf]
        constructor
        · intro h
          exact DetailResponse.noConfusion h
        · intro hall
          exact (hall p (List.mem_of_find?_eq_some hf)
            (by simpa using List.find?_some hf)).elim
  · intro p hp
    simp only [detailHandler] at hp
    cases hf : ps.find? (fun p => p.p_no == pNo) with
    | none => rw [hf] at hp; simp at hp
    | some r =>
        rw [hf] at hp
        cases hp
        exact ⟨List.mem_of_find?_eq_some hf, by simpa using List.find?_some hf⟩

theorem detail_lookup_total_witness :
    detailHandler [pA] "zz" = DetailResponse.notFound 404 "Participant not found" :=
  (detail_lookup_total [pA] "zz").1.mpr (by decide)

end ExcelApp
